import Mathlib

/-!
Verification development for the phase03 agent core of the
smart-docs-chat repository: the ReAct state machine (react_agent.py),
its state model (agent_state.py), the checkpoint manager
(checkpointer.py) and the workflow driver (graph_builder.py), shallowly
embedded in Lean 4.

Modelling conventions:
* Python dictionaries with string keys are modelled as insertion-ordered
  association lists (`List (String × _)`); Python dict assignment,
  deletion and lookup are `assocSet`, `eraseKey` and `alookup` below.
* Python truthiness of optional strings (`if state.get("error"):`) is
  `truthyStr`: `None` and the empty string are falsy.
* The language model and the tools are external collaborators; their
  responses are inputs to the embedding (the `Oracles` structure).  The
  prompt-building, JSON-parsing, fallback and input-coercion pipeline of
  `ReActAgent.reason` operates entirely on oracle-supplied data, so its
  outcome (a structured thought, or an exception) is itself the oracle
  value, as are tool invocation results and the answer-synthesis call.
* Wall-clock timestamps (`datetime.now()`) are nondeterministic inputs
  and appear as explicit `String` parameters where the code reads the
  clock; `timestamp` fields of records, which no control flow ever
  inspects, are omitted from the embedded records.
-/

/-- Python truthiness of an optional string value: `None` and `""` are
falsy, every non-empty string is truthy. -/
def truthyStr : Option String → Bool
  | none => false
  | some s => !(s == "")

/-- Python `str(x)` rendering of an optional string (`None` prints as
`"None"`), used when a possibly-absent tool name is interpolated into an
error message. -/
def pyStrOpt : Option String → String
  | none => "None"
  | some s => s

/-- Dict lookup (`d[k]` / `d.get(k)`) on an insertion-ordered
association list. -/
def alookup {α : Type} : List (String × α) → String → Option α
  | [], _ => none
  | p :: l, k => if p.1 == k then some p.2 else alookup l k

/-- Dict assignment `d[k] = v`: replaces the value in place when the key
exists (Python dicts keep the original insertion position), appends a
new entry otherwise. -/
def assocSet {α : Type} : List (String × α) → String → α → List (String × α)
  | [], k, v => [(k, v)]
  | p :: l, k, v => if p.1 == k then (k, v) :: l else p :: assocSet l k v

/-- Dict deletion `del d[k]`: removes the (unique) entry with the key;
no-op when the key is absent. -/
def eraseKey {α : Type} : List (String × α) → String → List (String × α)
  | [], _ => []
  | p :: l, k => if p.1 == k then l else p :: eraseKey l k

/-- Chat message, as used by the agent core (langchain message classes
restricted to the fields the core reads or writes): `ai` carries the
tool-call ids attached by `ReActAgent.act`, `tool` carries the
`tool_call_id`. -/
inductive Msg : Type
  | human (content : String)
  | ai (content : String) (toolCallIds : List String)
  | tool (content : String) (toolCallId : String)
deriving DecidableEq

/-- Embeds `agent_state.ReasoningStep` (the `timestamp` field, set from the
wall clock and never read by any control flow, is omitted). -/
structure ReasoningStep where
  step_number : Nat
  thought : String
  action : Option String
  observation : Option String
deriving DecidableEq

/-- Tool arguments: a string-keyed dict; the values the core produces
by input coercion are strings. -/
abbrev ArgDict := List (String × String)

/-- Embeds `agent_state.ToolCall` (timestamp omitted as above).  The source
declares `tool_name : str`; `ReActAgent.act` nevertheless passes the
pending action's possibly-`None` tool name into `add_tool_call`, so the
field is embedded as an optional string (a `None` value would in fact
fail pydantic validation — theorems about `act` therefore assume a
string tool name). -/
structure ToolCall where
  tool_name : Option String
  arguments : ArgDict
  result : Option String
  error : Option String
deriving DecidableEq

/-- The pending tool invocation stashed in `state["metadata"]` by
`ReActAgent.reason` (`{"tool": thought.action, "input": thought.action_input}`). -/
structure PendingAction where
  tool : Option String
  input : Option ArgDict
deriving DecidableEq

/-- The open `metadata` dict of `AgentState`, embedded as the closed
record of the keys the core itself reads or writes. -/
structure Metadata where
  start_time : Option String
  query : Option String
  pending_action : Option PendingAction
  last_checkpoint_id : Option String
  resumed_from_checkpoint : Option String
deriving DecidableEq

/-- Embeds `agent_state.AgentState`.  A `TypedDict`, so every key is present in
every state the constructors build; optional values model keys holding
`None`. -/
structure AgentState where
  messages : List Msg
  current_step : String
  next_step : Option String
  reasoning_steps : List ReasoningStep
  tool_calls : List ToolCall
  context : List (String × String)
  iteration_count : Nat
  max_iterations : Nat
  final_answer : Option String
  error : Option String
  metadata : Metadata
deriving DecidableEq

/-- Embeds `agent_state.create_initial_state`.  The recorded `start_time`
(`datetime.now().isoformat()`, never inspected by any control flow) is
embedded as a fixed placeholder string. -/
def create_initial_state (query : String) (max_iterations : Nat) : AgentState :=
  { messages := [Msg.human query]
    current_step := "start"
    next_step := some "reason"
    reasoning_steps := []
    tool_calls := []
    context := []
    iteration_count := 0
    max_iterations := max_iterations
    final_answer := none
    error := none
    metadata :=
      { start_time := some "start_time"
        query := some query
        pending_action := none
        last_checkpoint_id := none
        resumed_from_checkpoint := none } }

/-- Embeds `agent_state.add_reasoning_step` (the `observation` argument is
always left at its default `None` by the callers in the core). -/
def add_reasoning_step (s : AgentState) (thought : String) (action : Option String) : AgentState :=
  { s with reasoning_steps :=
      s.reasoning_steps ++
        [{ step_number := s.reasoning_steps.length + 1
           thought := thought
           action := action
           observation := none }] }

/-- Embeds `agent_state.add_tool_call`. -/
def add_tool_call (s : AgentState) (tool_name : Option String) (arguments : ArgDict)
    (result : Option String) (error : Option String) : AgentState :=
  { s with tool_calls :=
      s.tool_calls ++
        [{ tool_name := tool_name, arguments := arguments, result := result, error := error }] }

/-- Embeds `agent_state.should_continue`. -/
def should_continue (s : AgentState) : Bool :=
  if truthyStr s.error then false
  else if truthyStr s.final_answer then false
  else if s.max_iterations ≤ s.iteration_count then false
  else true

/-- The summary dict produced by `agent_state.extract_final_state`; the
degraded result built by `GraphBuilder.run` on a graph-execution
exception omits the `context` and `metadata` keys, so those two fields
are optional (`none` models a missing key). -/
structure Summary where
  answer : Option String
  reasoning_steps : Nat
  tool_calls : Nat
  iterations : Nat
  error : Option String
  context : Option (List (String × String))
  metadata : Option Metadata
deriving DecidableEq

/-- Embeds `agent_state.extract_final_state`.  The source computes the answer
as `state.get("final_answer", "No answer generated")`; Python's
`dict.get` yields the default only when the key is *missing*, and
`AgentState` is a `TypedDict` whose constructor always sets the
`final_answer` key (to `None` initially), so for every state built by
the core the stored value — including `None` — is returned as-is and
the sentinel default is dead.  The embedding reflects this: the answer
field is the stored optional value. -/
def extract_final_state (s : AgentState) : Summary :=
  { answer := s.final_answer
    reasoning_steps := s.reasoning_steps.length
    tool_calls := s.tool_calls.length
    iterations := s.iteration_count
    error := s.error
    context := some s.context
    metadata := some s.metadata }

/-- Embeds `ReActThought` as it stands after `ReActAgent.reason`'s parsing,
fallback and input-coercion pipeline (all of which operate on the raw
LLM response, an external input). -/
structure ReActThought where
  reasoning : String
  action_needed : Bool
  action : Option String
  action_input : Option ArgDict
  is_final_answer : Bool
  final_answer : Option String
deriving DecidableEq

/-- Outcome of one `reason` invocation of the language model together
with the parse/fallback pipeline: a structured thought, or an exception
(LLM failure, or a parse failure the fallback re-raises) whose string
rendering is carried. -/
inductive ReasonOutcome : Type
  | thought (t : ReActThought)
  | failure (e : String)
deriving DecidableEq

/-- External collaborators of one agent run: the reasoning-LLM outcome
for each iteration index, the registered tool names
(`ToolsManager.get_tools`), the result or exception of each tool
invocation (indexed by the number of tool calls recorded so far — each
`act` records exactly one), and the single answer-synthesis LLM call. -/
structure Oracles where
  reasonOut : Nat → ReasonOutcome
  toolNames : List String
  toolOut : Nat → Except String String
  answerOut : Except String String

/-- Embeds `ReActAgent.reason`.  On a successful LLM/parsing pass it appends a
ReasoningStep, decides `next_step` (answer / act-with-pending-action /
observe) and increments `iteration_count`; on an exception it sets
`error` and `next_step = None`. -/
def reason (o : Oracles) (s : AgentState) : AgentState :=
  match o.reasonOut s.iteration_count with
  | ReasonOutcome.failure e =>
      { s with error := some ("推論エラー: " ++ e), next_step := none }
  | ReasonOutcome.thought t =>
      let s1 := add_reasoning_step s t.reasoning (if t.action_needed then t.action else none)
      let s2 :=
        if t.is_final_answer then
          { s1 with next_step := some "answer", final_answer := t.final_answer }
        else if t.action_needed then
          { s1 with next_step := some "act"
                    metadata := { s1.metadata with
                      pending_action := some { tool := t.action, input := t.action_input } } }
        else
          { s1 with next_step := some "observe" }
      { s2 with iteration_count := s2.iteration_count + 1 }

/-- Back-fill of the most recently appended ReasoningStep's
`observation` (`state["reasoning_steps"][-1].observation = str(result)`). -/
def backfillObservation : List ReasoningStep → String → List ReasoningStep
  | [], _ => []
  | [st], r => [{ st with observation := some r }]
  | st :: st2 :: rest, r => st :: backfillObservation (st2 :: rest) r

/-- Embeds `ReActAgent.act`.  Guard: with no pending action it records an error
and terminates.  Otherwise it resolves the tool by name (a miss raises
`ValueError`, caught by the same handler as an invocation failure),
invokes it, records exactly one ToolCall, back-fills the last
ReasoningStep's observation, appends the assistant/tool message pair,
clears the pending action and routes to `observe`; on failure it records
the ToolCall with the error, sets `error` and `next_step = None`. -/
def act (o : Oracles) (s : AgentState) : AgentState :=
  match s.metadata.pending_action with
  | none =>
      { s with error := some "実行するアクションが指定されていません", next_step := none }
  | some pa =>
      let toolInput := pa.input.getD []
      let found := match pa.tool with
        | some nm => o.toolNames.contains nm
        | none => false
      if found then
        match o.toolOut s.tool_calls.length with
        | Except.ok result =>
            let nm := pyStrOpt pa.tool
            let s1 := add_tool_call s pa.tool toolInput (some result) none
            let s2 := { s1 with reasoning_steps := backfillObservation s1.reasoning_steps result }
            let callId := nm ++ "_" ++ toString s2.iteration_count
            let s3 := { s2 with messages :=
              s2.messages ++ [Msg.ai ("ツール " ++ nm ++ " を使用します。") [callId],
                              Msg.tool result callId] }
            { s3 with metadata := { s3.metadata with pending_action := none }
                      next_step := some "observe" }
        | Except.error e =>
            let s1 := add_tool_call s pa.tool toolInput none (some e)
            { s1 with error := some ("ツール実行エラー: " ++ e), next_step := none }
      else
        let e := "ツール \u0027" ++ pyStrOpt pa.tool ++ "\u0027 が見つかりません"
        let s1 := add_tool_call s pa.tool toolInput none (some e)
        { s1 with error := some ("ツール実行エラー: " ++ e), next_step := none }

/-- Embeds `ReActAgent.observe`: pure routing — iteration cap (checked with
`>=`), then error, then back to `reason`. -/
def observe (s : AgentState) : AgentState :=
  if s.max_iterations ≤ s.iteration_count then { s with next_step := some "answer" }
  else if truthyStr s.error then { s with next_step := some "answer" }
  else { s with next_step := some "reason" }

/-- Embeds `ReActAgent.answer`.  An already-truthy `final_answer` is returned
unchanged (early return — `next_step` is *not* touched); else a truthy
`error` yields the apology embedding the error text (again an early
return leaving `next_step` unchanged); else the LLM synthesizes the
answer (success sets `final_answer`, appends it as an assistant message
and sets `next_step = None`; an exception sets `error`, a fallback
apology `final_answer`, and `next_step = None`). -/
def answer (o : Oracles) (s : AgentState) : AgentState :=
  if truthyStr s.final_answer then s
  else if truthyStr s.error then
    { s with
        final_answer :=
          some ("申し訳ございません。処理中にエラーが発生しました: " ++ (s.error.getD "")) }
  else
    match o.answerOut with
    | Except.ok c =>
        { s with final_answer := some c
                 messages := s.messages ++ [Msg.ai c []]
                 next_step := none }
    | Except.error e =>
        { s with error := some ("回答生成エラー: " ++ e)
                 final_answer := some "申し訳ございません。回答の生成に失敗しました。"
                 next_step := none }

/-- One dispatch of the `while state.get("next_step"):` loop body of
`ReActAgent.run`, followed by its error check: after a known step, if
`error` is truthy and `final_answer` is not, the loop calls `answer`
and breaks. -/
def react_run (o : Oracles) : Nat → AgentState → Option AgentState
  | 0, s => if truthyStr s.next_step then none else some s
  | fuel + 1, s =>
      if truthyStr s.next_step then
        let step := s.next_step.getD ""
        if step == "reason" then
          let s1 := reason o s
          if truthyStr s1.error && !truthyStr s1.final_answer then some (answer o s1)
          else react_run o fuel s1
        else if step == "act" then
          let s1 := act o s
          if truthyStr s1.error && !truthyStr s1.final_answer then some (answer o s1)
          else react_run o fuel s1
        else if step == "observe" then
          let s1 := observe s
          if truthyStr s1.error && !truthyStr s1.final_answer then some (answer o s1)
          else react_run o fuel s1
        else if step == "answer" then
          let s1 := answer o s
          if truthyStr s1.error && !truthyStr s1.final_answer then some (answer o s1)
          else react_run o fuel s1
        else
          some s
      else
        some s

/-- Index entry of `CheckpointManager.metadata["checkpoints"]` for one
checkpoint id (the stored `timestamp` string and free-form extra
metadata, never read by any control flow, are omitted). -/
structure CkptIndexEntry where
  file_path : String
  step_name : String
  iteration : Nat
deriving DecidableEq

/-- Embeds `agent_state.CheckpointData`: the record pickled into the
checkpoint's backing data file (timestamp and extra metadata omitted as
above). -/
structure CheckpointData where
  checkpoint_id : String
  state : AgentState
  step_name : String
  iteration : Nat
deriving DecidableEq

/-- State of a `CheckpointManager`: the `metadata.json` index (the
`checkpoints` dict and the `order` list) plus the data files on disk,
keyed by file path.  File-system operations are modelled as total
(no I/O failures), matching the properties under scrutiny, which are
about the index/file logic, not OS errors. -/
structure CMState where
  checkpoints : List (String × CkptIndexEntry)
  order : List String
  files : List (String × CheckpointData)
  max_checkpoints : Nat
  enable_compression : Bool
deriving DecidableEq

/-- Rendering of a reasoning step used by the state serialization. -/
def stepRepr (st : ReasoningStep) : String :=
  toString st.step_number ++ ":" ++ st.thought ++ ":" ++ pyStrOpt st.action ++ ":" ++
    pyStrOpt st.observation

/-- Rendering of an argument dict used by the state serialization. -/
def argRepr (a : ArgDict) : String :=
  String.intercalate "," (a.map (fun p => p.1 ++ "=" ++ p.2))

/-- Rendering of a message used by the state serialization. -/
def msgRepr : Msg → String
  | Msg.human c => "human:" ++ c
  | Msg.ai c ids => "ai:" ++ c ++ ":" ++ String.intercalate "," ids
  | Msg.tool c cid => "tool:" ++ c ++ ":" ++ cid

/-- Rendering of a tool call used by the state serialization. -/
def callRepr (c : ToolCall) : String :=
  pyStrOpt c.tool_name ++ ":" ++ argRepr c.arguments ++ ":" ++ pyStrOpt c.result ++ ":" ++
    pyStrOpt c.error

/-- Deterministic serialization of an `AgentState`, standing for the
Python expression `json.dumps(str(state), sort_keys=True)` that feeds
the checkpoint-id hash: a pure function of the state value alone (it
contains no clock, counter or randomness).  The exact rendering is
irrelevant to every property below — only that equal states serialize
equally. -/
def stateRepr (s : AgentState) : String :=
  String.intercalate "|"
    [String.intercalate ";" (s.messages.map msgRepr),
     s.current_step,
     pyStrOpt s.next_step,
     String.intercalate ";" (s.reasoning_steps.map stepRepr),
     String.intercalate ";" (s.tool_calls.map callRepr),
     argRepr s.context,
     toString s.iteration_count,
     toString s.max_iterations,
     pyStrOpt s.final_answer,
     pyStrOpt s.error,
     pyStrOpt s.metadata.query]

/-- Lower-case hex digit. -/
def hexDigitChar (n : Nat) : Char :=
  if n < 10 then Char.ofNat (48 + n) else Char.ofNat (87 + n)

/-- Eight-hex-digit rendering of a 32-bit value. -/
def toHex8 (n : Nat) : String :=
  String.mk ((List.range 8).map (fun i => hexDigitChar ((n / 16 ^ (7 - i)) % 16)))

/-- Content-hash component of a checkpoint id, standing for
`hashlib.md5(...).hexdigest()[:8]` in `_generate_checkpoint_id`: a pure,
deterministic function from the serialized state to 8 hex characters.
The digest arithmetic is modelled by a 32-bit string fold — no property
below depends on any particular hash value, only on the hash being a
function of the serialized state (equal inputs give equal digests, for
md5 exactly as for this stand-in). -/
def stateHash8 (s : String) : String :=
  toHex8 (s.data.foldl (fun acc c => (acc * 31 + c.toNat) % 4294967296) 5381)

/-- Embeds `CheckpointManager._generate_checkpoint_id`: the
second-granularity wall-clock string `datetime.now().strftime("%Y%m%d_%H%M%S")`
(an explicit nondeterministic input here) combined with the
content hash of the state — and nothing else. -/
def generate_checkpoint_id (ts : String) (st : AgentState) : String :=
  "checkpoint_" ++ ts ++ "_" ++ stateHash8 (stateRepr st)

/-- Backing-file path of a checkpoint (`checkpoint_dir / f"{id}{ext}"`
with the default directory). -/
def checkpointFilePath (m : CMState) (cid : String) : String :=
  "data/checkpoints/" ++ cid ++ (if m.enable_compression then ".pkl.gz" else ".pkl")

/-- Embeds `CheckpointManager.delete_checkpoint`.  Unknown id: returns
`False` untouched.  Otherwise: unlink the backing file if it exists,
delete the index entry, remove the id from the order list, return
`True`.  The source's `order.remove` raises `ValueError` when the id is
absent from the order list; the exception is caught and `False`
returned — at that point the file and the dict entry are already gone
(the mutations precede the raise). -/
def delete_checkpoint (m : CMState) (cid : String) : Bool × CMState :=
  match alookup m.checkpoints cid with
  | none => (false, m)
  | some info =>
      let files :=
        if (alookup m.files info.file_path).isSome then eraseKey m.files info.file_path
        else m.files
      if cid ∈ m.order then
        (true, { m with checkpoints := eraseKey m.checkpoints cid
                        order := m.order.erase cid
                        files := files })
      else
        (false, { m with checkpoints := eraseKey m.checkpoints cid, files := files })

/-- Embeds `CheckpointManager._cleanup_old_checkpoints`: when the order
list exceeds the configured maximum, delete the oldest
`len(order) - max_checkpoints` ids (iterating over a slice copy of the
order list, as the source does). -/
def cleanup_old_checkpoints (m : CMState) : CMState :=
  if m.max_checkpoints < m.order.length then
    (m.order.take (m.order.length - m.max_checkpoints)).foldl
      (fun acc cid => (delete_checkpoint acc cid).2) m
  else m

/-- Embeds `CheckpointManager.save_checkpoint`: generate the id from the
clock and the state, write the data file, add the index entry, append
the id to the order list, evict old checkpoints, and return the id. -/
def save_checkpoint (m : CMState) (ts : String) (st : AgentState) (stepName : String)
    (iteration : Nat) : String × CMState :=
  let cid := generate_checkpoint_id ts st
  let path := checkpointFilePath m cid
  let data : CheckpointData :=
    { checkpoint_id := cid, state := st, step_name := stepName, iteration := iteration }
  let entry : CkptIndexEntry := { file_path := path, step_name := stepName, iteration := iteration }
  let m1 := { m with files := assocSet m.files path data }
  let m2 := { m1 with checkpoints := assocSet m1.checkpoints cid entry }
  let m3 := { m2 with order := m2.order ++ [cid] }
  (cid, cleanup_old_checkpoints m3)

/-- Embeds `CheckpointManager.load_checkpoint`: `None` when the id is
not indexed, `None` when the indexed backing file is missing, the
stored record otherwise. -/
def load_checkpoint (m : CMState) (cid : String) : Option CheckpointData :=
  match alookup m.checkpoints cid with
  | none => none
  | some info =>
      match alookup m.files info.file_path with
      | none => none
      | some data => some data

/-- Embeds `CheckpointManager.list_checkpoints`: walks the order list
(oldest first) and emits the index info of every id still present in
the checkpoints dict, tagged with its id. -/
def list_checkpoints (m : CMState) : List (String × CkptIndexEntry) :=
  m.order.filterMap (fun cid => (alookup m.checkpoints cid).map (fun info => (cid, info)))

/-- Checkpoint ids visible in a listing, in listing order. -/
def listIds (m : CMState) : List String :=
  (list_checkpoints m).map Prod.fst

/-- Fresh `CheckpointManager` (empty index, default compression). -/
def initCM (maxCk : Nat) : CMState :=
  { checkpoints := [], order := [], files := [], max_checkpoints := maxCk,
    enable_compression := true }

/-- Embeds `GraphBuilder._route_after_reason`. -/
def route_after_reason (s : AgentState) : String :=
  if truthyStr s.error then "answer"
  else if s.next_step = some "act" then "act"
  else if s.next_step = some "answer" then "answer"
  else if !(should_continue s) then "answer"
  else "checkpoint"

/-- Embeds `GraphBuilder._route_after_observe`: error, then the
`next_step` set by `observe`, then the continuation predicate, then the
periodic mod-5 checkpoint rule, else `reason`. -/
def route_after_observe (s : AgentState) : String :=
  if truthyStr s.error then "answer"
  else if s.next_step = some "reason" then "reason"
  else if s.next_step = some "answer" then "answer"
  else if !(should_continue s) then "answer"
  else if s.iteration_count % 5 = 0 then "checkpoint"
  else "reason"

/-- Unconditional edges of the graph built by
`GraphBuilder._build_graph` (the conditional edges are the two routing
functions above). -/
def graphFixedEdges : List (String × String) :=
  [("start", "reason"), ("act", "observe"), ("answer", "checkpoint"), ("checkpoint", "END")]

/-- Degraded result dict returned by `GraphBuilder.run` when the graph
execution machinery throws (note: no `context`/`metadata` keys). -/
def degradedResult (e : String) : Summary :=
  { answer := some ("エラーが発生しました: " ++ e)
    error := some e
    reasoning_steps := 0
    tool_calls := 0
    iterations := 0
    context := none
    metadata := none }

/-- Resume marker set by `GraphBuilder.run` on a state restored from a
checkpoint. -/
def markResumed (st : AgentState) (cid : String) : AgentState :=
  { st with metadata := { st.metadata with resumed_from_checkpoint := some cid } }

/-- Embeds `GraphBuilder.run`.  The initial state is resolved *before*
the `try` block: resuming with an id whose checkpoint cannot be loaded
raises `ValueError(f"Checkpoint {id} not found")` to the caller
(`Except.error`).  The compiled graph's streamed execution and
final-state extraction happen inside the `try` and are collapsed into
the `exec` input; an exception there is caught and converted into the
degraded summary (`Except.ok`, never re-raised). -/
def graph_run (cm : CMState) (query : String) (maxIter : Nat) (checkpointId : Option String)
    (exec : AgentState → Except String AgentState) : Except String Summary :=
  match checkpointId with
  | some cid =>
      match load_checkpoint cm cid with
      | some data =>
          match exec (markResumed data.state cid) with
          | Except.ok fs => Except.ok (extract_final_state fs)
          | Except.error e => Except.ok (degradedResult e)
      | none => Except.error ("Checkpoint " ++ cid ++ " not found")
  | none =>
      match exec (create_initial_state query maxIter) with
      | Except.ok fs => Except.ok (extract_final_state fs)
      | Except.error e => Except.ok (degradedResult e)

/-! ### Helper lemmas and concrete fixtures -/

/-- Fixed oracle bundle for concrete evaluations: a reasoning LLM that
always asks to observe, one registered tool, a tool that returns "4",
and an answer-synthesis call that succeeds. -/
def oFix : Oracles :=
  { reasonOut := fun _ => ReasonOutcome.thought
      { reasoning := "r", action_needed := false, action := none, action_input := none,
        is_final_answer := false, final_answer := none }
    toolNames := ["calculator"]
    toolOut := fun _ => Except.ok "4"
    answerOut := Except.ok "final answer" }

theorem string_append_ne_empty (p e : String) (h : p ≠ "") : p ++ e ≠ "" := by
  intro heq
  apply h
  rw [String.ext_iff, String.data_append] at heq
  rw [String.ext_iff]
  have hp := (List.append_eq_nil.mp heq).1
  simpa using hp

theorem truthy_some_append (p e : String) (h : p ≠ "") : truthyStr (some (p ++ e)) = true := by
  simp [truthyStr, string_append_ne_empty p e h]

theorem react_run_of_next_falsy (o : Oracles) (f : Nat) (s : AgentState)
    (h : truthyStr s.next_step = false) : react_run o f s = some s := by
  cases f <;> simp [react_run, h]

/-- The state of claim C1: `final_answer` was already set by a prior
reason step (literal text), and the routing sent the run to `answer`. -/
def sC1 : AgentState :=
  { create_initial_state "q" 10 with final_answer := some "42", next_step := some "answer" }

theorem answer_sC1 (o : Oracles) : answer o sC1 = sC1 := rfl

theorem react_run_sC1 (o : Oracles) : ∀ f, react_run o f sC1 = none := by
  intro f
  induction f with
  | zero => rfl
  | succ n ih => simpa [react_run, answer_sC1, sC1, truthyStr, create_initial_state] using ih

theorem alookup_eq_none_iff {α : Type} (l : List (String × α)) (k : String) :
    alookup l k = none ↔ k ∉ l.map Prod.fst := by
  induction l with
  | nil => simp [alookup]
  | cons p t ih =>
      by_cases h : p.1 = k
      · simp [alookup, h]
      · simp [alookup, h, ih, Ne.symm h]

theorem alookup_mem_keys {α : Type} {l : List (String × α)} {k : String} {v : α}
    (h : alookup l k = some v) : k ∈ l.map Prod.fst := by
  by_contra hmem
  rw [← alookup_eq_none_iff] at hmem
  rw [h] at hmem
  cases hmem

/-! ### C1 -/

/-- C1: the claim states that the `answer` step sets `next_step = None`
unconditionally at the end, for every input state — in particular when
`final_answer` was already set by a prior reason step.  The code
instead returns early on a truthy `final_answer` without touching
`next_step`: at `sC1` (final answer "42", routed to `answer`) the step
is the identity, `next_step` stays `"answer"`, and the
`ReActAgent.run` loop consequently never terminates (no fuel bound
completes it). -/
theorem c1_answer_does_not_clear_next_step :
    (∀ o : Oracles, answer o sC1 = sC1) ∧
    sC1.next_step = some "answer" ∧
    sC1.final_answer = some "42" ∧
    (∀ (o : Oracles) (f : Nat), react_run o f sC1 = none) :=
  ⟨answer_sC1, rfl, rfl, fun o f => react_run_sC1 o f⟩

/-! ### C2 -/

/-- The state of claim C2: both `error` and `final_answer` truthy on
entry to `answer`. -/
def sC2 : AgentState :=
  { create_initial_state "q" 10 with
      final_answer := some "42", error := some "boom", next_step := some "answer" }

/-- The state for the apology side of C2: `error` truthy,
`final_answer` unset. -/
def sC2e : AgentState :=
  { create_initial_state "q" 10 with error := some "boom", next_step := some "answer" }

/-- C2 counterexample: with both `error` and `final_answer` set,
`ReActAgent.answer` keeps the explicit final answer unchanged and does
*not* synthesize the apology — `final_answer`, not `error`, wins,
because the code checks `final_answer` first. -/
theorem c2_counterexample :
    truthyStr sC2.error = true ∧ truthyStr sC2.final_answer = true ∧
    answer oFix sC2 = sC2 ∧
    (answer oFix sC2).final_answer = some "42" ∧
    (answer oFix sC2).final_answer ≠
      some ("申し訳ございません。処理中にエラーが発生しました: " ++ "boom") := by
  refine ⟨rfl, rfl, rfl, rfl, by decide⟩

/-- C2 amended: the fixed precedence of `ReActAgent.answer` is
explicit final answer > error: a truthy `final_answer` makes the step
the identity (no apology), and the apology embedding the error detail
is synthesized exactly when `error` is truthy and `final_answer` is
not (leaving `next_step` and `error` unchanged). -/
theorem c2_amended_final_answer_wins :
    ∀ (o : Oracles) (s : AgentState),
      (truthyStr s.final_answer = true → answer o s = s) ∧
      (truthyStr s.error = true → truthyStr s.final_answer = false →
        (answer o s).final_answer =
          some ("申し訳ございません。処理中にエラーが発生しました: " ++ s.error.getD "") ∧
        (answer o s).next_step = s.next_step ∧
        (answer o s).error = s.error) := by
  intro o s
  constructor
  · intro h
    simp [answer, h]
  · intro he hf
    simp [answer, he, hf]

/-- Witness for C2's amended theorem at the concrete states `sC2`
(final answer wins) and `sC2e` (apology synthesized). -/
theorem c2_witness :
    (truthyStr sC2.final_answer = true ∧ answer oFix sC2 = sC2) ∧
    (truthyStr sC2e.error = true ∧ truthyStr sC2e.final_answer = false ∧
      (answer oFix sC2e).final_answer =
        some ("申し訳ございません。処理中にエラーが発生しました: " ++ sC2e.error.getD "")) :=
  ⟨⟨rfl, (c2_amended_final_answer_wins oFix sC2).1 rfl⟩,
   ⟨rfl, rfl, ((c2_amended_final_answer_wins oFix sC2e).2 rfl rfl).1⟩⟩

/-! ### C3 -/

/-- C3: the claim states that `extract_final_state` maps an absent
`final_answer` to the sentinel `"No answer generated"` and never
propagates null.  The `AgentState` dict always carries the
`final_answer` key (set to `None` by `create_initial_state`), so
Python's `dict.get` default never fires: the summary's answer for the
initial state is null, not the sentinel. -/
theorem c3_extract_propagates_null_answer :
    (extract_final_state (create_initial_state "q" 10)).answer = none ∧
    (extract_final_state (create_initial_state "q" 10)).answer ≠ some "No answer generated" :=
  ⟨rfl, by decide⟩

/-! ### C4 -/

/-- A post-`observe` state on its 5th completed iteration: the claim's
mod-5 condition holds, yet routing does not go to `checkpoint`. -/
def sC4 : AgentState := { create_initial_state "q" 10 with iteration_count := 5 }

/-- C4: the claim states that some reachable post-`observe` state
routes to `checkpoint` via the `iteration_count mod 5 == 0` rule.  In
the code, `observe` always sets `next_step` to `"answer"` or
`"reason"`, and `_route_after_observe` tests those before the mod-5
rule, so no post-`observe` state ever routes to `checkpoint`: the
periodic branch is dead code; in particular at iteration 5 the route
is `"reason"`.  (The checkpoint after `answer` is the fixed
`answer → checkpoint` edge and does exist.) -/
theorem c4_periodic_checkpoint_unreachable :
    (∀ s : AgentState, route_after_observe (observe s) ≠ "checkpoint") ∧
    (sC4.iteration_count % 5 = 0 ∧ should_continue sC4 = true ∧
      route_after_observe (observe sC4) = "reason") ∧
    ("answer", "checkpoint") ∈ graphFixedEdges := by
  refine ⟨?_, ⟨rfl, rfl, rfl⟩, by decide⟩
  intro s
  unfold observe route_after_observe
  split_ifs <;> simp_all

/-! ### C5 -/

/-- The state saved twice in claim C5. -/
def sC5 : AgentState := create_initial_state "q" 10

/-- First save of `sC5` (clock string `"20260101_120000"`). -/
def c5save1 : String × CMState := save_checkpoint (initCM 10) "20260101_120000" sC5 "reason" 0

/-- Second, immediately following save of the equal state within the
same clock second. -/
def c5save2 : String × CMState := save_checkpoint c5save1.2 "20260101_120000" sC5 "reason" 0

set_option maxRecDepth 100000 in
/-- C5: the claim states that any two `save_checkpoint` calls in one
process yield distinct ids, even rapid successive calls on equal
states, and that a save followed by `list_checkpoints` shows the new id
exactly once.  The id is a pure function of the second-granularity
clock string and the state content, so two saves of the equal state in
the same second collide — and the listing then contains the id twice
(the order list holds two copies mapping to one index entry). -/
theorem c5_id_collision_on_equal_state_same_second :
    c5save1.1 = c5save2.1 ∧
    (listIds c5save2.2).count c5save2.1 = 2 ∧
    generate_checkpoint_id "20260101_120000" sC5 = c5save1.1 := by
  refine ⟨rfl, ?_, rfl⟩
  decide

/-! ### C8 counterexample -/

/-- A state routed to `act` with no pending action in its metadata. -/
def sC8 : AgentState := { create_initial_state "q" 10 with next_step := some "act" }

/-- C8 counterexample: the claim states that *every* execution of the
`act` step appends exactly one ToolCall.  On a state with no pending
action, `act` appends none: it records the guard error and terminates. -/
theorem c8_counterexample :
    sC8.metadata.pending_action = none ∧
    sC8.tool_calls = [] ∧
    (act oFix sC8).tool_calls = [] ∧
    (act oFix sC8).error = some "実行するアクションが指定されていません" ∧
    (act oFix sC8).next_step = none := by
  refine ⟨rfl, rfl, rfl, rfl, rfl⟩

/-! ### C9 -/

/-- C9: resuming `GraphBuilder.run` with a checkpoint id unknown to the
manager raises `ValueError("Checkpoint <id> not found")` to the caller
(the id resolution happens before the `try` block), while an exception
thrown by the graph execution machinery itself is caught and converted
into the degraded summary whose answer carries the error text. -/
theorem c9_resume_raises_and_graph_errors_degrade :
    (∀ (cm : CMState) (q : String) (M : Nat) (cid : String)
        (exec : AgentState → Except String AgentState),
      alookup cm.checkpoints cid = none →
      graph_run cm q M (some cid) exec =
        Except.error ("Checkpoint " ++ cid ++ " not found")) ∧
    (∀ (cm : CMState) (q : String) (M : Nat) (e : String),
      graph_run cm q M none (fun _ => Except.error e) = Except.ok (degradedResult e) ∧
      (degradedResult e).answer = some ("エラーが発生しました: " ++ e)) := by
  constructor
  · intro cm q M cid exec h
    simp [graph_run, load_checkpoint, h]
  · intro cm q M e
    exact ⟨rfl, rfl⟩

/-- Witness for C9 at a fresh manager and the unknown id `"missing"`,
plus a graph-execution exception `"boom"` without resume. -/
theorem c9_witness :
    alookup (initCM 10).checkpoints "missing" = none ∧
    graph_run (initCM 10) "q" 10 (some "missing") (fun st => Except.ok st) =
      Except.error ("Checkpoint " ++ "missing" ++ " not found") ∧
    graph_run (initCM 10) "q" 10 none (fun _ => Except.error "boom") =
      Except.ok (degradedResult "boom") :=
  ⟨rfl,
   c9_resume_raises_and_graph_errors_degrade.1 (initCM 10) "q" 10 "missing" (fun st => Except.ok st) rfl,
   (c9_resume_raises_and_graph_errors_degrade.2 (initCM 10) "q" 10 "boom").1⟩

/-! ### C10 -/

/-- C10: with every indexed id present in the order list (an invariant
`save_checkpoint` maintains), `delete_checkpoint` returns `False`
exactly when the id is absent from the checkpoints index; when the id
is indexed but its backing data file is missing from disk, the call
still succeeds — it skips the unlink, removes the index entry and the
order entry, leaves the files untouched, and returns `True`. -/
theorem c10_delete_decided_by_index :
    ∀ (m : CMState) (cid : String),
      (∀ k, k ∈ m.checkpoints.map Prod.fst → k ∈ m.order) →
      (((delete_checkpoint m cid).1 = false) ↔ alookup m.checkpoints cid = none) ∧
      (∀ info : CkptIndexEntry,
        alookup m.checkpoints cid = some info →
        alookup m.files info.file_path = none →
        (delete_checkpoint m cid).1 = true ∧
        (delete_checkpoint m cid).2.checkpoints = eraseKey m.checkpoints cid ∧
        (delete_checkpoint m cid).2.order = m.order.erase cid ∧
        (delete_checkpoint m cid).2.files = m.files) := by
  intro m cid wf
  cases h : alookup m.checkpoints cid with
  | none =>
      constructor
      · simp [delete_checkpoint, h]
      · intro info hinfo
        cases hinfo
  | some info =>
      have hmem : cid ∈ m.order := wf cid (alookup_mem_keys h)
      constructor
      · simp [delete_checkpoint, h, hmem]
      · intro info' hinfo' hfile
        injection hinfo' with hinfo'
        subst hinfo'
        simp [delete_checkpoint, h, hmem, hfile]

/-- Concrete manager for the C10 witness: one indexed checkpoint whose
backing file is absent from disk. -/
def mC10 : CMState :=
  { checkpoints :=
      [("id1", { file_path := "data/checkpoints/id1.pkl.gz", step_name := "reason", iteration := 1 })]
    order := ["id1"]
    files := []
    max_checkpoints := 10
    enable_compression := true }

/-- Witness for C10 at `mC10`: deleting the indexed id with missing
backing file succeeds, and deleting an unknown id reports `False`. -/
theorem c10_witness :
    (∀ k, k ∈ mC10.checkpoints.map Prod.fst → k ∈ mC10.order) ∧
    alookup mC10.checkpoints "id1" =
      some { file_path := "data/checkpoints/id1.pkl.gz", step_name := "reason", iteration := 1 } ∧
    alookup mC10.files "data/checkpoints/id1.pkl.gz" = none ∧
    (delete_checkpoint mC10 "id1").1 = true ∧
    (delete_checkpoint mC10 "id1").2.files = mC10.files ∧
    ((delete_checkpoint mC10 "nope").1 = false ↔ alookup mC10.checkpoints "nope" = none) :=
  ⟨by decide, rfl, rfl,
   ((c10_delete_decided_by_index mC10 "id1" (by decide)).2 _ rfl rfl).1,
   ((c10_delete_decided_by_index mC10 "id1" (by decide)).2 _ rfl rfl).2.2.2,
   (c10_delete_decided_by_index mC10 "nope" (by decide)).1⟩

/-! ### C8 amended -/

theorem backfill_getLast (r : String) :
    ∀ l : List ReasoningStep, l ≠ [] →
      ∃ st0, l.getLast? = some st0 ∧
        (backfillObservation l r).getLast? = some { st0 with observation := some r } := by
  intro l
  induction l with
  | nil => intro h; exact absurd rfl h
  | cons a t ih =>
      intro _
      cases t with
      | nil => exact ⟨a, rfl, rfl⟩
      | cons b t2 =>
          obtain ⟨st0, h1, h2⟩ := ih (by simp)
          refine ⟨st0, ?_, ?_⟩
          · rw [List.getLast?_cons_cons]
            exact h1
          · show (a :: backfillObservation (b :: t2) r).getLast? = _
            cases hb : backfillObservation (b :: t2) r with
            | nil => rw [hb] at h2; cases h2
            | cons c cs =>
                rw [hb] at h2
                rw [List.getLast?_cons_cons]
                exact h2

/-- C8 amended: every execution of `act` on a state whose metadata
carries a pending action naming a tool (a string, possibly unknown to
the registry) appends exactly one ToolCall — arguments plus result on
success, arguments plus error on failure (tool missing, or the
invocation raising); on success the most recently appended
ReasoningStep, if any exists, has its observation back-filled with the
stringified tool result, while on failure (and on the no-pending-action
guard path, where no ToolCall is appended at all) the reasoning steps
are untouched. -/
theorem c8_amended_act_accounting :
    ∀ (o : Oracles) (s : AgentState) (pa : PendingAction) (nm : String),
      s.metadata.pending_action = some pa → pa.tool = some nm →
      (act o s).tool_calls.length = s.tool_calls.length + 1 ∧
      (∀ r : String, o.toolNames.contains nm = true →
        o.toolOut s.tool_calls.length = Except.ok r →
        (act o s).tool_calls.getLast? =
          some { tool_name := some nm, arguments := pa.input.getD [],
                 result := some r, error := none } ∧
        (s.reasoning_steps ≠ [] →
          ∃ st0, s.reasoning_steps.getLast? = some st0 ∧
            (act o s).reasoning_steps.getLast? = some { st0 with observation := some r })) ∧
      (o.toolNames.contains nm = false →
        (act o s).tool_calls.getLast? =
          some { tool_name := some nm, arguments := pa.input.getD [],
                 result := none,
                 error := some ("ツール '" ++ nm ++ "' が見つかりません") } ∧
        (act o s).reasoning_steps = s.reasoning_steps) ∧
      (∀ e : String, o.toolNames.contains nm = true →
        o.toolOut s.tool_calls.length = Except.error e →
        (act o s).tool_calls.getLast? =
          some { tool_name := some nm, arguments := pa.input.getD [],
                 result := none, error := some e } ∧
        (act o s).reasoning_steps = s.reasoning_steps) := by
  intro o s pa nm hpa hnm
  refine ⟨?_, ?_, ?_, ?_⟩
  · by_cases hm : nm ∈ o.toolNames
    · cases hout : o.toolOut s.tool_calls.length with
      | ok r => simp [act, hpa, hnm, hm, hout, add_tool_call]
      | error e => simp [act, hpa, hnm, hm, hout, add_tool_call]
    · simp [act, hpa, hnm, hm, add_tool_call]
  · intro r hf hout
    have hm : nm ∈ o.toolNames := by simpa using hf
    constructor
    · simp [act, hpa, hnm, hm, hout, add_tool_call, List.getLast?_concat]
    · intro hne
      obtain ⟨st0, h1, h2⟩ := backfill_getLast r s.reasoning_steps hne
      refine ⟨st0, h1, ?_⟩
      simpa [act, hpa, hnm, hm, hout, add_tool_call] using h2
  · intro hf
    have hm : nm ∉ o.toolNames := by simpa using hf
    constructor
    · simp [act, hpa, hnm, hm, add_tool_call, List.getLast?_concat, pyStrOpt]
    · simp [act, hpa, hnm, hm, add_tool_call]
  · intro e hf hout
    have hm : nm ∈ o.toolNames := by simpa using hf
    constructor
    · simp [act, hpa, hnm, hm, hout, add_tool_call, List.getLast?_concat]
    · simp [act, hpa, hnm, hm, hout, add_tool_call]

/-- Concrete state for the C8 witness: a pending calculator call and
one prior reasoning step awaiting its observation. -/
def sC8w : AgentState :=
  { create_initial_state "q" 10 with
      next_step := some "act"
      reasoning_steps :=
        [{ step_number := 1, thought := "t", action := some "calculator", observation := none }]
      metadata := { (create_initial_state "q" 10).metadata with
        pending_action := some { tool := some "calculator", input := some [("expression", "2 + 2")] } } }

/-- Witness for C8's amended theorem at `sC8w` with the `oFix` oracle:
one ToolCall appended carrying the arguments and the result, and the
prior ReasoningStep back-filled. -/
theorem c8_witness :
    sC8w.metadata.pending_action =
      some { tool := some "calculator", input := some [("expression", "2 + 2")] } ∧
    oFix.toolNames.contains "calculator" = true ∧
    oFix.toolOut sC8w.tool_calls.length = Except.ok "4" ∧
    (act oFix sC8w).tool_calls.length = sC8w.tool_calls.length + 1 ∧
    (act oFix sC8w).tool_calls.getLast? =
      some { tool_name := some "calculator",
             arguments := (some [("expression", "2 + 2")] : Option ArgDict).getD [],
             result := some "4", error := none } :=
  ⟨rfl, rfl, rfl,
   (c8_amended_act_accounting oFix sC8w
     { tool := some "calculator", input := some [("expression", "2 + 2")] } "calculator" rfl rfl).1,
   ((c8_amended_act_accounting oFix sC8w
     { tool := some "calculator", input := some [("expression", "2 + 2")] } "calculator" rfl rfl).2.1
       "4" rfl rfl).1⟩


/-! ### C6 -/

/-- One `save_checkpoint` request: the clock string read during the
call plus the arguments. -/
structure SaveReq where
  ts : String
  st : AgentState
  step_name : String
  iteration : Nat
deriving DecidableEq

/-- The id a save request generates. -/
def reqId (r : SaveReq) : String := generate_checkpoint_id r.ts r.st

/-- A sequence of `save_checkpoint` calls against one manager. -/
def foldSaves (m : CMState) (reqs : List SaveReq) : CMState :=
  reqs.foldl (fun acc r => (save_checkpoint acc r.ts r.st r.step_name r.iteration).2) m

theorem mapfst_assocSet_fresh {α : Type} (l : List (String × α)) (k : String) (v : α)
    (h : k ∉ l.map Prod.fst) : (assocSet l k v).map Prod.fst = l.map Prod.fst ++ [k] := by
  induction l with
  | nil => simp [assocSet]
  | cons p t ih =>
      simp only [List.map_cons, List.mem_cons] at h
      push_neg at h
      simp [assocSet, Ne.symm h.1, ih h.2]

theorem eraseKey_of_head {α : Type} (l : List (String × α)) (a : String) (t : List String)
    (h : l.map Prod.fst = a :: t) : (eraseKey l a).map Prod.fst = t := by
  cases l with
  | nil => cases h
  | cons p l' =>
      simp only [List.map_cons, List.cons.injEq] at h
      simp [eraseKey, h.1, h.2]

theorem alookup_isSome_of_mem {α : Type} {l : List (String × α)} {k : String}
    (h : k ∈ l.map Prod.fst) : ∃ v, alookup l k = some v := by
  cases hl : alookup l k with
  | none => rw [alookup_eq_none_iff] at hl; exact absurd h hl
  | some v => exact ⟨v, rfl⟩

theorem cleanup_noop (m : CMState) (h : m.order.length ≤ m.max_checkpoints) :
    cleanup_old_checkpoints m = m := by
  unfold cleanup_old_checkpoints
  rw [if_neg]
  omega

theorem cleanup_single (m : CMState) (a : String) (t : List String)
    (ho : m.order = a :: t) (hl : m.order.length = m.max_checkpoints + 1) :
    cleanup_old_checkpoints m = (delete_checkpoint m a).2 := by
  unfold cleanup_old_checkpoints
  rw [if_pos (by omega)]
  have h1 : m.order.length - m.max_checkpoints = 1 := by omega
  rw [h1, ho]
  simp

theorem delete_checkpoint_components (m : CMState) (a : String) (v : CkptIndexEntry)
    (hv : alookup m.checkpoints a = some v) (hmem : a ∈ m.order) :
    (delete_checkpoint m a).2.checkpoints = eraseKey m.checkpoints a ∧
    (delete_checkpoint m a).2.order = m.order.erase a ∧
    (delete_checkpoint m a).2.max_checkpoints = m.max_checkpoints := by
  simp [delete_checkpoint, hv, hmem]

theorem save_checkpoint_invariant (m : CMState) (r : SaveReq)
    (hM : 1 ≤ m.max_checkpoints)
    (hkeys : m.checkpoints.map Prod.fst = m.order)
    (hlen : m.order.length ≤ m.max_checkpoints)
    (hnd : (m.order ++ [reqId r]).Nodup) :
    ((save_checkpoint m r.ts r.st r.step_name r.iteration).2.checkpoints.map Prod.fst =
        (save_checkpoint m r.ts r.st r.step_name r.iteration).2.order) ∧
    (save_checkpoint m r.ts r.st r.step_name r.iteration).2.order =
        (m.order ++ [reqId r]).drop (m.order.length + 1 - m.max_checkpoints) ∧
    (save_checkpoint m r.ts r.st r.step_name r.iteration).2.max_checkpoints =
        m.max_checkpoints ∧
    (save_checkpoint m r.ts r.st r.step_name r.iteration).2.order.length ≤
        m.max_checkpoints := by
  have hfresh : reqId r ∉ m.order := by
    rw [List.nodup_append] at hnd
    intro hcon
    exact hnd.2.2 hcon (List.mem_singleton.mpr rfl)
  have hfreshk : reqId r ∉ m.checkpoints.map Prod.fst := by rw [hkeys]; exact hfresh
  have hsave : (save_checkpoint m r.ts r.st r.step_name r.iteration).2 =
      cleanup_old_checkpoints
        { m with
            files := assocSet m.files (checkpointFilePath m (reqId r))
              { checkpoint_id := reqId r, state := r.st, step_name := r.step_name,
                iteration := r.iteration }
            checkpoints := assocSet m.checkpoints (reqId r)
              { file_path := checkpointFilePath m (reqId r), step_name := r.step_name,
                iteration := r.iteration }
            order := m.order ++ [reqId r] } := rfl
  set m3 : CMState :=
    { m with
        files := assocSet m.files (checkpointFilePath m (reqId r))
          { checkpoint_id := reqId r, state := r.st, step_name := r.step_name,
            iteration := r.iteration }
        checkpoints := assocSet m.checkpoints (reqId r)
          { file_path := checkpointFilePath m (reqId r), step_name := r.step_name,
            iteration := r.iteration }
        order := m.order ++ [reqId r] } with hm3
  have hkeys3 : m3.checkpoints.map Prod.fst = m.order ++ [reqId r] := by
    rw [hm3]
    exact (mapfst_assocSet_fresh _ _ _ hfreshk).trans (by rw [hkeys])
  have horder3 : m3.order = m.order ++ [reqId r] := rfl
  have hmax3 : m3.max_checkpoints = m.max_checkpoints := rfl
  by_cases hc : m.order.length < m.max_checkpoints
  · -- no eviction
    have hnoop : cleanup_old_checkpoints m3 = m3 := by
      apply cleanup_noop
      rw [horder3, hmax3]
      simp
      omega
    rw [hsave, hnoop]
    refine ⟨by rw [hkeys3, horder3], ?_, hmax3, ?_⟩
    · rw [horder3]
      have : m.order.length + 1 - m.max_checkpoints = 0 := by omega
      rw [this, List.drop_zero]
    · rw [horder3]
      simp
      omega
  · -- eviction of exactly the oldest entry
    have heq : m.order.length = m.max_checkpoints := by omega
    have hpos : 0 < m.order.length := by omega
    cases hord : m.order with
    | nil => rw [hord] at hpos; simp at hpos
    | cons a t =>
        have hkeys3' : m3.checkpoints.map Prod.fst = a :: (t ++ [reqId r]) := by
          rw [hkeys3, hord]
          simp
        have horder3' : m3.order = a :: (t ++ [reqId r]) := by
          rw [horder3, hord]
          simp
        have hlen3 : m3.order.length = m3.max_checkpoints + 1 := by
          rw [horder3, hmax3]
          simp
          omega
        have hclean : cleanup_old_checkpoints m3 = (delete_checkpoint m3 a).2 :=
          cleanup_single m3 a (t ++ [reqId r]) horder3' hlen3
        obtain ⟨v, hv⟩ := alookup_isSome_of_mem (l := m3.checkpoints) (k := a)
          (by rw [hkeys3']; exact List.mem_cons_self a _)
        have hmem3 : a ∈ m3.order := by rw [horder3']; exact List.mem_cons_self a _
        obtain ⟨hck4, hord4, hmax4⟩ := delete_checkpoint_components m3 a v hv hmem3
        have hkeys4 : (delete_checkpoint m3 a).2.checkpoints.map Prod.fst = t ++ [reqId r] := by
          rw [hck4]
          exact eraseKey_of_head _ _ _ hkeys3'
        have hord4' : (delete_checkpoint m3 a).2.order = t ++ [reqId r] := by
          rw [hord4, horder3']
          exact List.erase_cons_head a _
        rw [hsave, hclean]
        rw [hord] at heq
        simp only [List.length_cons] at heq
        refine ⟨by rw [hkeys4, hord4'], ?_, by rw [hmax4, hmax3], ?_⟩
        · rw [hord4']
          have hone : (a :: t).length + 1 - m.max_checkpoints = 1 := by
            simp only [List.length_cons]
            omega
          rw [hone]
          simp
        · rw [hord4']
          simp
          omega

theorem foldSaves_invariant :
    ∀ (reqs : List SaveReq) (m : CMState),
      1 ≤ m.max_checkpoints →
      m.checkpoints.map Prod.fst = m.order →
      m.order.length ≤ m.max_checkpoints →
      (m.order ++ reqs.map reqId).Nodup →
      (foldSaves m reqs).checkpoints.map Prod.fst = (foldSaves m reqs).order ∧
      (foldSaves m reqs).order =
        (m.order ++ reqs.map reqId).drop
          (m.order.length + reqs.length - m.max_checkpoints) ∧
      (foldSaves m reqs).max_checkpoints = m.max_checkpoints ∧
      (foldSaves m reqs).order.length ≤ m.max_checkpoints := by
  intro reqs
  induction reqs with
  | nil =>
      intro m h1 h2 h3 h4
      have hfe : foldSaves m [] = m := rfl
      rw [hfe]
      refine ⟨h2, ?_, rfl, h3⟩
      simp only [List.map_nil, List.append_nil, List.length_nil, Nat.add_zero]
      rw [Nat.sub_eq_zero_of_le h3, List.drop_zero]
  | cons r rest ih =>
      intro m h1 h2 h3 h4
      have hnd1 : (m.order ++ [reqId r]).Nodup := by
        have hsub : List.Sublist (m.order ++ [reqId r])
            (m.order ++ (reqId r :: rest.map reqId)) := by
          apply List.Sublist.append_left
          exact List.Sublist.cons₂ _ (List.nil_sublist _)
        exact List.Sublist.nodup hsub (by simpa using h4)
      obtain ⟨k2, korder, kmax, klen⟩ := save_checkpoint_invariant m r h1 h2 h3 hnd1
      have hfold : foldSaves m (r :: rest) =
          foldSaves (save_checkpoint m r.ts r.st r.step_name r.iteration).2 rest := rfl
      set m1 := (save_checkpoint m r.ts r.st r.step_name r.iteration).2 with hm1
      have h1' : 1 ≤ m1.max_checkpoints := by rw [kmax]; exact h1
      have h3' : m1.order.length ≤ m1.max_checkpoints := by rw [kmax]; exact klen
      have h4' : (m1.order ++ rest.map reqId).Nodup := by
        have hsub : List.Sublist (m1.order ++ rest.map reqId)
            ((m.order ++ [reqId r]) ++ rest.map reqId) := by
          rw [korder]
          exact List.Sublist.append_right (List.drop_sublist _ _) _
        have hnd2 : ((m.order ++ [reqId r]) ++ rest.map reqId).Nodup := by
          simpa [List.append_assoc] using h4
        exact List.Sublist.nodup hsub hnd2
      obtain ⟨f2, forder, fmax, flen⟩ := ih m1 h1' k2 h3' h4'
      have hd1le : m.order.length + 1 - m.max_checkpoints ≤ (m.order ++ [reqId r]).length := by
        simp only [List.length_append, List.length_cons, List.length_nil]
        omega
      have hassoc : (m.order ++ [reqId r]) ++ rest.map reqId =
          m.order ++ (reqId r :: rest.map reqId) := by simp
      refine ⟨?_, ?_, ?_, ?_⟩
      · rw [hfold]; exact f2
      · rw [hfold, forder, korder, kmax,
          ← List.drop_append_of_le_length hd1le, List.drop_drop, hassoc]
        congr 1
        simp only [List.length_drop, List.length_append, List.length_cons, List.length_nil,
          List.length_map]
        omega
      · rw [hfold, fmax, kmax]
      · rw [hfold]
        rw [kmax] at flen
        exact flen

theorem filterMap_alookup_of_keys {α : Type} :
    ∀ (l : List String) (cks : List (String × α)),
      (∀ cid ∈ l, ∃ v, alookup cks cid = some v) →
      (l.filterMap (fun cid => (alookup cks cid).map (fun info => (cid, info)))).map
        Prod.fst = l := by
  intro l cks
  induction l with
  | nil => intro _; simp
  | cons a t ih =>
      intro h
      obtain ⟨v, hv⟩ := h a (List.mem_cons_self a t)
      simp [hv, ih (fun cid hc => h cid (List.mem_cons_of_mem a hc))]

theorem listIds_eq_order (m : CMState) (h : m.checkpoints.map Prod.fst = m.order) :
    listIds m = m.order := by
  unfold listIds list_checkpoints
  exact filterMap_alookup_of_keys m.order m.checkpoints
    (fun cid hc => alookup_isSome_of_mem (by rw [h]; exact hc))

/-- C6: saving `max_checkpoints + k` checkpoints (`k ≥ 1`, distinct
generated ids) against a fresh manager leaves exactly
`max_checkpoints` behind; eviction is strictly FIFO by insertion
order, so the listing shows precisely the ids of the last
`max_checkpoints` saves (in order), and every one of the first `k`
saved checkpoints is no longer loadable. -/
theorem c6_retention_fifo :
    ∀ (M k : Nat) (reqs : List SaveReq),
      1 ≤ M → reqs.length = M + k → 1 ≤ k → (reqs.map reqId).Nodup →
      listIds (foldSaves (initCM M) reqs) = (reqs.map reqId).drop k ∧
      (listIds (foldSaves (initCM M) reqs)).length = M ∧
      ∀ r ∈ reqs.take k, load_checkpoint (foldSaves (initCM M) reqs) (reqId r) = none := by
  intro M k reqs hM hlen hk hnd
  have hinit1 : (initCM M).checkpoints.map Prod.fst = (initCM M).order := rfl
  have hinit2 : (initCM M).order.length ≤ (initCM M).max_checkpoints := by
    simp [initCM]
  obtain ⟨f2, forder, fmax, flen⟩ :=
    foldSaves_invariant reqs (initCM M) hM hinit1 hinit2 (by simpa [initCM] using hnd)
  have hkub : (initCM M).order.length + reqs.length - (initCM M).max_checkpoints = k := by
    simp only [initCM]
    simp
    omega
  have hids : listIds (foldSaves (initCM M) reqs) = (reqs.map reqId).drop k := by
    rw [listIds_eq_order _ f2, forder, hkub]
    simp [initCM]
  refine ⟨hids, ?_, ?_⟩
  · rw [hids, List.length_drop, List.length_map]
    omega
  · intro r hr
    have hmemtake : reqId r ∈ (reqs.map reqId).take k := by
      rw [← List.map_take]
      exact List.mem_map_of_mem reqId hr
    have hnotin : reqId r ∉ (reqs.map reqId).drop k := by
      have hnd2 := hnd
      rw [← List.take_append_drop k (reqs.map reqId), List.nodup_append] at hnd2
      exact fun hc => hnd2.2.2 hmemtake hc
    have hlook : alookup (foldSaves (initCM M) reqs).checkpoints (reqId r) = none := by
      rw [alookup_eq_none_iff, f2, forder, hkub]
      simpa [initCM] using hnotin
    simp [load_checkpoint, hlook]

/-- Four concrete save requests (equal state, successive clock
seconds, hence distinct ids) against a manager with
`max_checkpoints = 3`. -/
def c6reqs : List SaveReq :=
  [{ ts := "20260101_000001", st := create_initial_state "a" 3, step_name := "s", iteration := 0 },
   { ts := "20260101_000002", st := create_initial_state "a" 3, step_name := "s", iteration := 0 },
   { ts := "20260101_000003", st := create_initial_state "a" 3, step_name := "s", iteration := 0 },
   { ts := "20260101_000004", st := create_initial_state "a" 3, step_name := "s", iteration := 0 }]

set_option maxRecDepth 1000000 in
/-- Witness for C6 at the four concrete saves with
`max_checkpoints = 3`: exactly the 2nd, 3rd and 4th ids are listed (in
order), and the 1st is no longer loadable. -/
theorem c6_witness :
    (c6reqs.length = 3 + 1 ∧ (c6reqs.map reqId).Nodup) ∧
    listIds (foldSaves (initCM 3) c6reqs) = (c6reqs.map reqId).drop 1 ∧
    load_checkpoint (foldSaves (initCM 3) c6reqs)
      (reqId { ts := "20260101_000001", st := create_initial_state "a" 3,
               step_name := "s", iteration := 0 }) = none :=
  ⟨⟨rfl, by decide⟩,
   (c6_retention_fifo 3 1 c6reqs (by decide) rfl (by decide) (by decide)).1,
   (c6_retention_fifo 3 1 c6reqs (by decide) rfl (by decide) (by decide)).2.2
     { ts := "20260101_000001", st := create_initial_state "a" 3,
       step_name := "s", iteration := 0 } (by decide)⟩

/-! ### C7 -/

/-- The reasoning model never claims a final answer (the hypothesis of
the termination property): the oracle outcome is either an exception or
a thought with `is_final_answer = false`. -/
def noFinalSignal : ReasonOutcome → Prop
  | ReasonOutcome.thought t => t.is_final_answer = false
  | ReasonOutcome.failure _ => True

theorem react_run_mono (o : Oracles) :
    ∀ {f f' : Nat} (s : AgentState), f ≤ f' →
      (react_run o f s).isSome = true → (react_run o f' s).isSome = true := by
  intro f
  induction f with
  | zero =>
      intro f' s _ h
      by_cases ht : truthyStr s.next_step = true
      · simp [react_run, ht] at h
      · rw [react_run_of_next_falsy o f' s (by simpa using ht)]
        rfl
  | succ n ih =>
      intro f' s hle h
      cases f' with
      | zero => omega
      | succ f'' =>
          have hle' : n ≤ f'' := by omega
          by_cases ht : truthyStr s.next_step = true
          · simp only [react_run, ht, if_true] at h ⊢
            by_cases h1 : (s.next_step.getD "" == "reason") = true
            · simp only [h1, if_true] at h ⊢
              by_cases hb : (truthyStr (reason o s).error &&
                  !truthyStr (reason o s).final_answer) = true
              · simp only [hb, if_true] at h ⊢; exact h
              · simp only [Bool.not_eq_true] at hb
                simp only [hb, Bool.false_eq_true, if_false] at h ⊢
                exact ih _ hle' h
            · simp only [Bool.not_eq_true] at h1
              simp only [h1, Bool.false_eq_true, if_false] at h ⊢
              by_cases h2 : (s.next_step.getD "" == "act") = true
              · simp only [h2, if_true] at h ⊢
                by_cases hb : (truthyStr (act o s).error &&
                    !truthyStr (act o s).final_answer) = true
                · simp only [hb, if_true] at h ⊢; exact h
                · simp only [Bool.not_eq_true] at hb
                  simp only [hb, Bool.false_eq_true, if_false] at h ⊢
                  exact ih _ hle' h
              · simp only [Bool.not_eq_true] at h2
                simp only [h2, Bool.false_eq_true, if_false] at h ⊢
                by_cases h3 : (s.next_step.getD "" == "observe") = true
                · simp only [h3, if_true] at h ⊢
                  by_cases hb : (truthyStr (observe s).error &&
                      !truthyStr (observe s).final_answer) = true
                  · simp only [hb, if_true] at h ⊢; exact h
                  · simp only [Bool.not_eq_true] at hb
                    simp only [hb, Bool.false_eq_true, if_false] at h ⊢
                    exact ih _ hle' h
                · simp only [Bool.not_eq_true] at h3
                  simp only [h3, Bool.false_eq_true, if_false] at h ⊢
                  by_cases h4 : (s.next_step.getD "" == "answer") = true
                  · simp only [h4, if_true] at h ⊢
                    by_cases hb : (truthyStr (answer o s).error &&
                        !truthyStr (answer o s).final_answer) = true
                    · simp only [hb, if_true] at h ⊢; exact h
                    · simp only [Bool.not_eq_true] at hb
                      simp only [hb, Bool.false_eq_true, if_false] at h ⊢
                      exact ih _ hle' h
                  · simp only [Bool.not_eq_true] at h4
                    simp only [h4, Bool.false_eq_true, if_false] at h ⊢
                    exact h
          · simp only [Bool.not_eq_true] at ht
            rw [react_run_of_next_falsy o _ s ht] at h ⊢
            exact h

theorem reason_cases (o : Oracles) (s : AgentState)
    (H : ∀ i, noFinalSignal (o.reasonOut i)) :
    (truthyStr (reason o s).error = true ∧
      (reason o s).final_answer = s.final_answer ∧ (reason o s).next_step = none) ∨
    ((reason o s).error = s.error ∧ (reason o s).final_answer = s.final_answer ∧
      (reason o s).iteration_count = s.iteration_count + 1 ∧
      (reason o s).max_iterations = s.max_iterations ∧
      (((reason o s).next_step = some "act" ∧
          (∃ pa, (reason o s).metadata.pending_action = some pa)) ∨
        (reason o s).next_step = some "observe")) := by
  cases hout : o.reasonOut s.iteration_count with
  | failure e =>
      left
      refine ⟨?_, ?_, ?_⟩ <;>
        simp [reason, hout, truthy_some_append "推論エラー: " e (by decide)]
  | thought t =>
      right
      have hf : t.is_final_answer = false := by
        have hh := H s.iteration_count
        rw [hout] at hh
        exact hh
      by_cases ha : t.action_needed
      · exact ⟨by simp [reason, hout, hf, ha, add_reasoning_step],
          by simp [reason, hout, hf, ha, add_reasoning_step],
          by simp [reason, hout, hf, ha, add_reasoning_step],
          by simp [reason, hout, hf, ha, add_reasoning_step],
          Or.inl ⟨by simp [reason, hout, hf, ha, add_reasoning_step],
            ⟨{ tool := t.action, input := t.action_input },
              by simp [reason, hout, hf, ha, add_reasoning_step]⟩⟩⟩
      · exact ⟨by simp [reason, hout, hf, ha, add_reasoning_step],
          by simp [reason, hout, hf, ha, add_reasoning_step],
          by simp [reason, hout, hf, ha, add_reasoning_step],
          by simp [reason, hout, hf, ha, add_reasoning_step],
          Or.inr (by simp [reason, hout, hf, ha, add_reasoning_step])⟩

theorem act_cases (o : Oracles) (s : AgentState) (pa : PendingAction)
    (hpa : s.metadata.pending_action = some pa) :
    ((act o s).next_step = some "observe" ∧ (act o s).error = s.error ∧
      (act o s).final_answer = s.final_answer ∧
      (act o s).iteration_count = s.iteration_count ∧
      (act o s).max_iterations = s.max_iterations) ∨
    (truthyStr (act o s).error = true ∧ (act o s).final_answer = s.final_answer ∧
      (act o s).next_step = none) := by
  cases htool : pa.tool with
  | none =>
      right
      refine ⟨?_, ?_, ?_⟩ <;>
        simp [act, hpa, htool, add_tool_call,
          truthy_some_append "ツール実行エラー: " _ (by decide)]
  | some nm =>
      by_cases hm : nm ∈ o.toolNames
      · cases hout : o.toolOut s.tool_calls.length with
        | ok r =>
            left
            refine ⟨?_, ?_, ?_, ?_, ?_⟩ <;>
              simp [act, hpa, htool, hm, hout, add_tool_call]
        | error e =>
            right
            refine ⟨?_, ?_, ?_⟩ <;>
              simp [act, hpa, htool, hm, hout, add_tool_call,
                truthy_some_append "ツール実行エラー: " e (by decide)]
      · right
        refine ⟨?_, ?_, ?_⟩ <;>
          simp [act, hpa, htool, hm, add_tool_call,
            truthy_some_append "ツール実行エラー: " _ (by decide)]

theorem observe_facts (s : AgentState) :
    (observe s).error = s.error ∧ (observe s).final_answer = s.final_answer ∧
    (observe s).iteration_count = s.iteration_count ∧
    (observe s).max_iterations = s.max_iterations ∧
    (s.max_iterations ≤ s.iteration_count → (observe s).next_step = some "answer") ∧
    (¬ s.max_iterations ≤ s.iteration_count → truthyStr s.error = false →
      (observe s).next_step = some "reason") := by
  unfold observe
  split_ifs with h1 h2 <;> simp_all

theorem react_run_succ_reason (o : Oracles) (f : Nat) (s : AgentState)
    (hns : s.next_step = some "reason") :
    react_run o (f + 1) s =
      if truthyStr (reason o s).error && !truthyStr (reason o s).final_answer then
        some (answer o (reason o s))
      else react_run o f (reason o s) := by
  cases s with
  | mk msgs cs ns rs tc ctx ic mi fa er md =>
      have hns' : ns = some "reason" := hns
      subst hns'
      rfl

theorem react_run_succ_act (o : Oracles) (f : Nat) (s : AgentState)
    (hns : s.next_step = some "act") :
    react_run o (f + 1) s =
      if truthyStr (act o s).error && !truthyStr (act o s).final_answer then
        some (answer o (act o s))
      else react_run o f (act o s) := by
  cases s with
  | mk msgs cs ns rs tc ctx ic mi fa er md =>
      have hns' : ns = some "act" := hns
      subst hns'
      rfl

theorem react_run_succ_observe (o : Oracles) (f : Nat) (s : AgentState)
    (hns : s.next_step = some "observe") :
    react_run o (f + 1) s =
      if truthyStr (observe s).error && !truthyStr (observe s).final_answer then
        some (answer o (observe s))
      else react_run o f (observe s) := by
  cases s with
  | mk msgs cs ns rs tc ctx ic mi fa er md =>
      have hns' : ns = some "observe" := hns
      subst hns'
      rfl

theorem react_run_succ_answer (o : Oracles) (f : Nat) (s : AgentState)
    (hns : s.next_step = some "answer") :
    react_run o (f + 1) s =
      if truthyStr (answer o s).error && !truthyStr (answer o s).final_answer then
        some (answer o (answer o s))
      else react_run o f (answer o s) := by
  cases s with
  | mk msgs cs ns rs tc ctx ic mi fa er md =>
      have hns' : ns = some "answer" := hns
      subst hns'
      rfl

theorem react_run_answer_step (o : Oracles) (s : AgentState)
    (hns : s.next_step = some "answer")
    (herr : truthyStr s.error = false)
    (hfin : truthyStr s.final_answer = false) :
    ∀ f, (react_run o (f + 1) s).isSome = true := by
  intro f
  have hnone : (answer o s).next_step = none := by
    cases hout : o.answerOut <;> simp [answer, herr, hfin, hout]
  have hbrk : (truthyStr (answer o s).error && !truthyStr (answer o s).final_answer) = false := by
    cases hout : o.answerOut with
    | ok c =>
        have herr' : (answer o s).error = s.error := by simp [answer, herr, hfin, hout]
        rw [herr', herr]
        rfl
    | error e =>
        have hfin' : truthyStr (answer o s).final_answer = true := by
          have hfa : (answer o s).final_answer = some "申し訳ございません。回答の生成に失敗しました。" := by
            simp [answer, herr, hfin, hout]
          rw [hfa]
          rfl
        rw [hfin']
        simp
  rw [react_run_succ_answer o f s hns, hbrk]
  simp only [Bool.false_eq_true, if_false]
  rw [react_run_of_next_falsy o f _ (by rw [hnone]; rfl)]
  rfl

theorem react_run_term (o : Oracles) (H : ∀ i, noFinalSignal (o.reasonOut i)) :
    ∀ (n : Nat) (s : AgentState),
      s.next_step = some "reason" →
      truthyStr s.error = false →
      truthyStr s.final_answer = false →
      s.max_iterations ≤ s.iteration_count + n →
      (react_run o (3 * n + 4) s).isSome = true := by
  intro n
  induction n using Nat.strong_induction_on with
  | _ n ih =>
      intro s hns herr hfin hmax
      rw [show 3 * n + 4 = (3 * n + 3) + 1 from by omega,
        react_run_succ_reason o (3 * n + 3) s hns]
      rcases reason_cases o s H with ⟨he1, hf1, _⟩ | ⟨he1, hf1, hi1, hm1, hroute⟩
      · -- reason raised: run breaks to answer and stops
        have hc : (truthyStr (reason o s).error && !truthyStr (reason o s).final_answer) = true := by
          rw [he1, hf1, hfin]
          rfl
        rw [hc]
        simp
      · -- reason succeeded (and, by hypothesis, did not claim a final answer)
        have herr1 : truthyStr (reason o s).error = false := by rw [he1]; exact herr
        have hfin1 : truthyStr (reason o s).final_answer = false := by rw [hf1]; exact hfin
        have hc : (truthyStr (reason o s).error && !truthyStr (reason o s).final_answer) = false := by
          rw [herr1]
          rfl
        rw [hc]
        simp only [Bool.false_eq_true, if_false]
        rcases hroute with ⟨hact, pa, hpa⟩ | hobs
        · -- reason → act → observe
          rw [show 3 * n + 3 = (3 * n + 2) + 1 from by omega,
            react_run_succ_act o (3 * n + 2) (reason o s) hact]
          rcases act_cases o (reason o s) pa hpa with ⟨ha1, ha2, ha3, ha4, ha5⟩ | ⟨ha1, ha2, ha3⟩
          · have herr2 : truthyStr (act o (reason o s)).error = false := by
              rw [ha2]; exact herr1
            have hfin2 : truthyStr (act o (reason o s)).final_answer = false := by
              rw [ha3]; exact hfin1
            have hc2 : (truthyStr (act o (reason o s)).error &&
                !truthyStr (act o (reason o s)).final_answer) = false := by
              rw [herr2]
              rfl
            rw [hc2]
            simp only [Bool.false_eq_true, if_false]
            rw [show 3 * n + 2 = (3 * n + 1) + 1 from by omega,
              react_run_succ_observe o (3 * n + 1) (act o (reason o s)) ha1]
            obtain ⟨ho1, ho2, ho3, ho4, ho5, ho6⟩ := observe_facts (act o (reason o s))
            have herr3 : truthyStr (observe (act o (reason o s))).error = false := by
              rw [ho1]; exact herr2
            have hfin3 : truthyStr (observe (act o (reason o s))).final_answer = false := by
              rw [ho2]; exact hfin2
            have hc3 : (truthyStr (observe (act o (reason o s))).error &&
                !truthyStr (observe (act o (reason o s))).final_answer) = false := by
              rw [herr3]
              rfl
            rw [hc3]
            simp only [Bool.false_eq_true, if_false]
            by_cases hterm :
                (act o (reason o s)).max_iterations ≤ (act o (reason o s)).iteration_count
            · exact react_run_answer_step o (observe (act o (reason o s)))
                (ho5 hterm) herr3 hfin3 (3 * n)
            · have hiter : (act o (reason o s)).iteration_count = s.iteration_count + 1 := by
                rw [ha4, hi1]
              have hmaxeq : (act o (reason o s)).max_iterations = s.max_iterations := by
                rw [ha5, hm1]
              have hn1 : 1 ≤ n := by
                rw [hiter, hmaxeq] at hterm
                omega
              have hns3 : (observe (act o (reason o s))).next_step = some "reason" :=
                ho6 hterm herr2
              have happ := ih (n - 1) (by omega) (observe (act o (reason o s))) hns3 herr3 hfin3
                (by rw [ho3, ho4, hiter, hmaxeq]; omega)
              rw [show 3 * n + 1 = 3 * (n - 1) + 4 from by omega]
              exact happ
          · -- act failed: break to answer and stop
            have hc2 : (truthyStr (act o (reason o s)).error &&
                !truthyStr (act o (reason o s)).final_answer) = true := by
              rw [ha1, ha2, hfin1]
              rfl
            rw [hc2]
            simp
        · -- reason → observe
          rw [show 3 * n + 3 = (3 * n + 2) + 1 from by omega,
            react_run_succ_observe o (3 * n + 2) (reason o s) hobs]
          obtain ⟨ho1, ho2, ho3, ho4, ho5, ho6⟩ := observe_facts (reason o s)
          have herr3 : truthyStr (observe (reason o s)).error = false := by
            rw [ho1]; exact herr1
          have hfin3 : truthyStr (observe (reason o s)).final_answer = false := by
            rw [ho2]; exact hfin1
          have hc3 : (truthyStr (observe (reason o s)).error &&
              !truthyStr (observe (reason o s)).final_answer) = false := by
            rw [herr3]
            rfl
          rw [hc3]
          simp only [Bool.false_eq_true, if_false]
          by_cases hterm : (reason o s).max_iterations ≤ (reason o s).iteration_count
          · exact react_run_answer_step o (observe (reason o s))
              (ho5 hterm) herr3 hfin3 (3 * n + 1)
          · have hn1 : 1 ≤ n := by
              rw [hi1, hm1] at hterm
              omega
            have hns3 : (observe (reason o s)).next_step = some "reason" := ho6 hterm herr1
            have happ := ih (n - 1) (by omega) (observe (reason o s)) hns3 herr3 hfin3
              (by rw [ho3, ho4, hi1, hm1]; omega)
            exact react_run_mono o (observe (reason o s)) (by omega) happ

/-- C7: iteration accounting and guaranteed termination.  Each
successful reasoning pass increments `iteration_count` by exactly 1
(so after N passes it equals N); `act`, `observe` and `answer` never
change it; the cap check uses `>=`, routing to `answer` exactly when
`iteration_count` reaches `max_iterations`; and for every oracle whose
reasoning model never signals `is_final_answer`, the `ReActAgent.run`
loop started on a fresh state completes within `3*max_iterations + 4`
dispatches. -/
theorem c7_monotonic_iteration_and_termination :
    (∀ (o : Oracles) (s : AgentState) (t : ReActThought),
        o.reasonOut s.iteration_count = ReasonOutcome.thought t →
        (reason o s).iteration_count = s.iteration_count + 1) ∧
    (∀ (o : Oracles) (s : AgentState), (act o s).iteration_count = s.iteration_count) ∧
    (∀ s : AgentState, (observe s).iteration_count = s.iteration_count) ∧
    (∀ (o : Oracles) (s : AgentState), (answer o s).iteration_count = s.iteration_count) ∧
    (∀ s : AgentState, s.max_iterations ≤ s.iteration_count →
        (observe s).next_step = some "answer") ∧
    (∀ (o : Oracles) (q : String) (M : Nat),
        (∀ i, noFinalSignal (o.reasonOut i)) →
        (react_run o (3 * M + 4) (create_initial_state q M)).isSome = true) := by
  refine ⟨?_, ?_, ?_, ?_, ?_, ?_⟩
  · intro o s t hout
    simp only [reason, hout]
    split_ifs <;> simp [add_reasoning_step]
  · intro o s
    cases hp : s.metadata.pending_action with
    | none => simp [act, hp]
    | some pa =>
        cases htool : pa.tool with
        | none => simp [act, hp, htool, add_tool_call]
        | some nm =>
            by_cases hm : nm ∈ o.toolNames
            · cases hout : o.toolOut s.tool_calls.length with
              | ok r => simp [act, hp, htool, hm, hout, add_tool_call]
              | error e => simp [act, hp, htool, hm, hout, add_tool_call]
            · simp [act, hp, htool, hm, add_tool_call]
  · intro s
    unfold observe
    split_ifs <;> rfl
  · intro o s
    unfold answer
    split_ifs <;> first
      | rfl
      | (cases hout : o.answerOut <;> simp [hout])
  · intro s hcap
    exact (observe_facts s).2.2.2.2.1 hcap
  · intro o q M hH
    exact react_run_term o hH M (create_initial_state q M) rfl rfl rfl (by simp [create_initial_state])

/-- Witness for C7 at the concrete oracle `oFix` (which never signals
a final answer): the first reasoning pass on a fresh state takes the
iteration count from 0 to 1, the cap check fires at equality, and the
run with `max_iterations = 2` completes within the bound. -/
theorem c7_witness :
    (oFix.reasonOut (create_initial_state "q" 2).iteration_count =
      ReasonOutcome.thought
        { reasoning := "r", action_needed := false, action := none, action_input := none,
          is_final_answer := false, final_answer := none } ∧
      (reason oFix (create_initial_state "q" 2)).iteration_count =
        (create_initial_state "q" 2).iteration_count + 1) ∧
    (({ create_initial_state "q" 10 with iteration_count := 10 } : AgentState).max_iterations ≤
        ({ create_initial_state "q" 10 with iteration_count := 10 } : AgentState).iteration_count ∧
      (observe { create_initial_state "q" 10 with iteration_count := 10 }).next_step =
        some "answer") ∧
    ((∀ i, noFinalSignal (oFix.reasonOut i)) ∧
      (react_run oFix (3 * 2 + 4) (create_initial_state "q" 2)).isSome = true) :=
  ⟨⟨rfl, c7_monotonic_iteration_and_termination.1 oFix (create_initial_state "q" 2) _ rfl⟩,
   ⟨by decide, c7_monotonic_iteration_and_termination.2.2.2.2.1 _ (by decide)⟩,
   ⟨fun _ => rfl,
    c7_monotonic_iteration_and_termination.2.2.2.2.2 oFix "q" 2 (fun _ => rfl)⟩⟩
